import Mathlib

/-!
Shallow embedding of the linkedin-resume-optimizer frontend client and page
logic (TypeScript source), used to settle the frozen claims about the
repository.  JavaScript string truthiness (`!value`) is modelled as equality
with the empty string; `FormData`/request bodies are modelled as explicit
tuples or key-value lists; the successive invocations of a retried request
function are modelled as a map from attempt index to outcome.
-/

namespace LinkedinOptimizer

/-- Substring containment, modelling JavaScript `String.prototype.includes`. -/
def containsSub (s pat : String) : Bool :=
  (s.data.tails).any (fun t => pat.data.isPrefixOf t)

/-- Lowercasing character by character, modelling `String.prototype.toLowerCase`. -/
def lowerString (s : String) : String :=
  String.mk (s.data.map Char.toLower)

/-- Suffix test, modelling `String.prototype.endsWith`. -/
def endsWithStr (s suf : String) : Bool :=
  suf.data.isSuffixOf s.data

/-- Whitespace trimming at both ends, modelling `String.prototype.trim`. -/
def trimString (s : String) : String :=
  String.mk (((s.data.dropWhile Char.isWhitespace).reverse.dropWhile
    Char.isWhitespace).reverse)

/-! ### Data model (frontend/src/lib/api/types.ts) -/

/-- A job posting as delivered to the frontend (interface `JobDescription`). -/
structure JobDescription where
  job_id : String
  title : String
  company : String
  location : String
  description : String
  url : String
  created_at : String
deriving DecidableEq, Repr

/-- Search request shape (interface `JobSearchRequest`, page-based variant).
Absent optional fields are the empty string, matching the form's
`initialValues` which default every field to `''`. -/
structure JobSearchRequest where
  keywords : String
  location : String
  date_posted : String
  job_type : String
  remote_filter : String
  experience_level : String
  sort_by : String
  page : Nat
deriving DecidableEq, Repr

/-- Structured search response (interface `JobSearchResponse`). -/
structure JobSearchResponse where
  jobs : List JobDescription
  total : Nat
  has_more : Bool
deriving DecidableEq, Repr

/-- An `Error` value thrown by the client; only its message is observable. -/
structure ApiError where
  message : String
deriving DecidableEq, Repr

/-! ### Error interceptor (part_003, `axiosInstance.interceptors.response`) -/

/-- The observable part of an axios failure: whether the transport timed out
(`error.code === 'ECONNABORTED'`), the HTTP status of the response when one
was received, and the upstream `detail` field of the response body when the
upstream supplied one (the empty string models a present-but-falsy detail). -/
structure AxiosFailure where
  timedOut : Bool
  status : Option Nat
  detail : Option String
deriving DecidableEq, Repr

def timeoutMsg : String :=
  "Request timed out. LinkedIn might be rate limiting requests. Please wait a few minutes before trying again."

def rateLimitMsg : String :=
  "Too many requests. Please wait a few minutes before trying again."

def notFoundMsg : String :=
  "Job not found or no longer available on LinkedIn."

def badRequestMsg : String :=
  "Invalid request. Please check your search terms."

def genericMsg : String :=
  "An error occurred. Please try again later."

def rateLimitExceededMsg : String :=
  "Rate limit exceeded. Please try again later."

def anErrorOccurredMsg : String :=
  "An error occurred"

def unexpectedErrorMsg : String :=
  "An unexpected error occurred"

/-- Model of the JavaScript idiom `detail || fallback`: the upstream detail
message when it is present and truthy, the fallback otherwise. -/
def detailOr (detail : Option String) (fallback : String) : String :=
  match detail with
  | some d => if d = "" then fallback else d
  | none => fallback

/-- The response interceptor of the `axiosInstance` client: maps a failed
HTTP call to the message of the `Error` it throws. -/
def interceptMessage (e : AxiosFailure) : String :=
  if e.timedOut then timeoutMsg
  else if e.status = some 429 then rateLimitMsg
  else if e.status = some 404 then notFoundMsg
  else if e.status = some 400 then detailOr e.detail badRequestMsg
  else detailOr e.detail genericMsg

/-- The `handleError` helper of the second client implementation (part_004):
`hasResponse` models `isAxiosError(error) && error.response`. -/
def handleErrorMessage (hasResponse : Bool) (status : Option Nat)
    (detail : Option String) : String :=
  if hasResponse then
    if status = some 429 then rateLimitExceededMsg
    else detailOr detail anErrorOccurredMsg
  else unexpectedErrorMsg

/-- The fixed generic messages the clients may substitute for an upstream
error body. -/
def fixedMessages : List String :=
  [timeoutMsg, rateLimitMsg, notFoundMsg, badRequestMsg, genericMsg,
   rateLimitExceededMsg, anErrorOccurredMsg, unexpectedErrorMsg]

/-! ### Retry policy (part_003, `JobsApi.retryRequest`) -/

/-- The rate-limit test of `retryRequest`: the lowercased error message
contains `'rate limit'` or `'too many requests'`. -/
def isRateLimitError (e : ApiError) : Bool :=
  containsSub (lowerString e.message) "rate limit" ||
  containsSub (lowerString e.message) "too many requests"

/-- Model of `JobsApi.retryRequest`, with the successive invocations of `fn` given as
`outcomes` indexed by attempt number starting at `i`.  Returns the final
outcome together with the list of back-off delays (the arguments of `wait`)
performed, in order. -/
def retryRequest {α : Type} (outcomes : Nat → Except ApiError α) (i : Nat)
    (retries : Nat) (delay : Nat) : Except ApiError α × List Nat :=
  match outcomes i with
  | .ok v => (.ok v, [])
  | .error e =>
    match retries with
    | 0 => (.error e, [])
    | r + 1 =>
      if isRateLimitError e then
        let rest := retryRequest outcomes (i + 1) r (delay * 2)
        (rest.1, delay :: rest.2)
      else (.error e, [])

/-- Specialization of `retryRequest` at its default arguments (`retries = 3`, `delay = 2000`). -/
def retryRequestDefault {α : Type} (outcomes : Nat → Except ApiError α) :
    Except ApiError α × List Nat :=
  retryRequest outcomes 0 3 2000

/-! ### JobsApi.search (part_003) and the legacy client search (part_004) -/

def searchValidationMsg : String := "Keywords are required for job search"

/-- The key-value entries of a `JobSearchRequest` in declaration order,
modelling `Object.entries(request)` with every value rendered as a string. -/
def requestEntries (r : JobSearchRequest) : List (String × String) :=
  [("keywords", r.keywords), ("location", r.location),
   ("date_posted", r.date_posted), ("job_type", r.job_type),
   ("remote_filter", r.remote_filter), ("experience_level", r.experience_level),
   ("sort_by", r.sort_by), ("page", toString r.page)]

/-- Model of `cleanRequest`: drops the entries whose value is null or the empty
string before the request body is posted. -/
def cleanRequest (r : JobSearchRequest) : List (String × String) :=
  (requestEntries r).filter (fun kv => kv.2 ≠ "")

/-- The body `JobsApi.search` posts to `/jobs/search`, or `none` when the
keywords guard throws before any network request is made. -/
def searchRequestSent (r : JobSearchRequest) : Option (List (String × String)) :=
  if r.keywords = "" then none else some (cleanRequest r)

/-- The shape of a successful search result as delivered to the caller by
one of the two client implementations. -/
inductive DeliveredSearch where
  | structured (jobs : List JobDescription) (total : Nat) (has_more : Bool)
  | flat (jobs : List JobDescription)
deriving DecidableEq, Repr

/-- Whether a delivered search result is the structured `{jobs, has_more}`
object rather than a bare array. -/
def DeliveredSearch.isStructured : DeliveredSearch → Bool
  | .structured _ _ _ => true
  | .flat _ => false

/-- Model of `JobsApi.search` (part_003): validates keywords, then delivers the
server's structured `JobSearchResponse` to the caller unchanged. -/
def JobsApi.search (r : JobSearchRequest) (server : JobSearchResponse) :
    Except ApiError DeliveredSearch :=
  if r.keywords = "" then .error ⟨searchValidationMsg⟩
  else .ok (.structured server.jobs server.total server.has_more)

/-- The legacy `jobsApi.search` (part_004): posts to `/api/jobs/search` and
delivers the server payload, a bare `JobDescription[]`, to the caller. -/
def legacySearch (_r : JobSearchRequest) (server : List JobDescription) :
    DeliveredSearch :=
  .flat server

/-- Model of `form.validate.keywords` on the search page: rejects keywords that are
empty after trimming. -/
def formValidateKeywords (value : String) : Option String :=
  if (trimString value).length = 0 then some "Keywords are required" else none

/-! ### OptimizePage form validation and submission -/

/-- The optimize form's values (interface `OptimizeFormValues`). -/
structure OptimizeFormValues where
  resume_text : String
  job_description : String
  job_url : String
deriving DecidableEq, Repr

/-- An uploaded file as the page observes it. -/
structure UploadedFile where
  name : String
  size : Nat
  content : String
deriving DecidableEq, Repr

def linkedinMarker : String := "linkedin.com/jobs"

def jobUrlInvalidMsg : String := "Must be a valid LinkedIn job URL"

def eitherRequiredMsg : String := "Either job description or URL is required"

def resumeRequiredMsg : String := "Resume text or file is required"

/-- Model of `form.validate.resume_text`: JS `!value && !currentFile`. -/
def validate_resume_text (value : String) (hasFile : Bool) : Option String :=
  if value = "" ∧ hasFile = false then some resumeRequiredMsg else none

/-- Model of `form.validate.job_description`. -/
def validate_job_description (value : String) (values : OptimizeFormValues) :
    Option String :=
  if value = "" ∧ values.job_url = "" then some eitherRequiredMsg else none

/-- Model of `form.validate.job_url`. -/
def validate_job_url (value : String) (values : OptimizeFormValues) :
    Option String :=
  if value = "" ∧ values.job_description = "" then some eitherRequiredMsg
  else if value ≠ "" ∧ containsSub value linkedinMarker = false then
    some jobUrlInvalidMsg
  else none

/-- All validation errors of the optimize form. -/
def optimizeFormErrors (values : OptimizeFormValues) (hasFile : Bool) :
    List String :=
  ([validate_resume_text values.resume_text hasFile,
    validate_job_description values.job_description values,
    validate_job_url values.job_url values]).filterMap id

/-- Whether a rich-document file was selected
(`file.name.endsWith('.docx') || file.name.endsWith('.doc')`). -/
def isRichDoc (name : String) : Bool :=
  endsWithStr name ".docx" || endsWithStr name ".doc"

/-- The network request `handleSubmit` dispatches once validation passed. -/
inductive OptimizeDispatch where
  | docx (fileName : String) (job_description : String) (job_url : String)
  | fromUrl (resume_text : String) (job_url : String)
  | plain (resume_text : String) (job_description : String)
deriving DecidableEq, Repr

/-- The branch structure of `handleSubmit` (both page copies behave the
same): a rich-document file goes to the docx endpoint with both job fields;
otherwise a non-empty `job_url` wins and `job_description` is dropped;
otherwise the plain optimize endpoint is used. -/
def handleSubmitDispatch (currentFile : Option UploadedFile)
    (values : OptimizeFormValues) : OptimizeDispatch :=
  match currentFile with
  | some f =>
    if isRichDoc f.name then
      .docx f.name values.job_description values.job_url
    else if values.job_url ≠ "" then .fromUrl values.resume_text values.job_url
    else .plain values.resume_text values.job_description
  | none =>
    if values.job_url ≠ "" then .fromUrl values.resume_text values.job_url
    else .plain values.resume_text values.job_description

/-- Model of `form.onSubmit`: it runs the submit handler only when every validator
returned `null`; otherwise nothing is dispatched. -/
def submitOptimize (currentFile : Option UploadedFile)
    (values : OptimizeFormValues) : Option OptimizeDispatch :=
  if optimizeFormErrors values currentFile.isSome = [] then
    some (handleSubmitDispatch currentFile values)
  else none

/-! ### File upload handling (OptimizePage second copy, `handleFileUpload`) -/

/-- Outcome of `handleFileUpload`. -/
inductive UploadOutcome where
  | tooLarge
  | badType
  | docxSelected (fieldValue : String)
  | emptyFile
  | loaded (content : String)
deriving DecidableEq, Repr

def maxUploadSize : Nat := 5 * 1024 * 1024

/-- Model of `handleFileUpload`: size check, extension check on the lowercased name,
then either a placeholder field value for rich documents, or the plain-text
content loaded as-is after a non-empty-after-trim check. -/
def handleFileUpload (name : String) (size : Nat) (content : String) :
    UploadOutcome :=
  if maxUploadSize < size then .tooLarge
  else
    let fileType := lowerString name
    if ¬ (endsWithStr fileType ".docx" = true ∨ endsWithStr fileType ".doc" = true ∨
          endsWithStr fileType ".txt" = true) then .badType
    else if endsWithStr fileType ".docx" = true ∨ endsWithStr fileType ".doc" = true then
      .docxSelected ("File selected: " ++ name)
    else if trimString content = "" then .emptyFile
    else .loaded content

/-! ### Export (OptimizePage export button, backend exporter) -/

/-- The export button's `onClick`: issues an export request (resume file
name and the `suggestions` field, `editedSuggestions || optimizedResume`)
only when an uploaded file is present; otherwise no request is issued. -/
def exportOnClick (currentFile : Option UploadedFile)
    (editedSuggestions optimizedResume : String) :
    Option (String × String) :=
  match currentFile with
  | some f =>
    some (f.name,
      if editedSuggestions ≠ "" then editedSuggestions else optimizedResume)
  | none => none

/-- A rich document reduced to its paragraph texts plus its non-text
structure (style/section count). -/
structure RichDoc where
  paragraphs : List String
  styleCount : Nat
deriving DecidableEq, Repr

inductive ExportError where
  | unsupportedFormat
deriving DecidableEq, Repr

/-- Modelled from the spec: the backend `/optimize/resume/export` endpoint
(Result Reconciler / Exporter, §4.5) is not among the provided sources.  Per
the spec it fails with `UnsupportedFormat` if `originalBinary` is absent,
and otherwise structurally merges `suggestedText` into the original
document, preserving its non-text structure. -/
def exportResumeService (originalBinary : Option RichDoc)
    (suggestedText : String) : Except ExportError RichDoc :=
  match originalBinary with
  | none => .error .unsupportedFormat
  | some d => .ok { d with paragraphs := [suggestedText] }

/-! ### optimizeFromUrl URL normalization (part_003, `resumeApi.optimizeFromUrl`) -/

/-- Character-level model of the trailing-slash regex replacement in
`resumeApi.optimizeFromUrl`: removes every trailing slash character. -/
def cleanUrlList (l : List Char) : List Char :=
  ((l.reverse).dropWhile (fun c => c = '/')).reverse

/-- Model of the `params.job_url.replace` call with the trailing-slash
regex: removes every trailing slash character. -/
def cleanUrl (s : String) : String :=
  String.mk (cleanUrlList s.data)

/-- The body posted to `/optimize/resume/url`. -/
def optimizeFromUrlBody (resume_text job_url : String) : String × String :=
  (resume_text, cleanUrl job_url)

/-- A run of `n` trailing slash characters. -/
def trailingSlashes (n : Nat) : String :=
  String.mk (List.replicate n '/')

/-! ### ping (part_003, `JobsApi.ping`) -/

/-- The `/ping` response body. -/
structure PingResponse where
  status : String
deriving DecidableEq, Repr

/-- Model of `JobsApi.ping`: on a successful response, compares the status token with
`'ok'`; on any error the exception is caught and `false` is returned. -/
def ping (outcome : Except ApiError PingResponse) : Bool :=
  match outcome with
  | .ok r => r.status == "ok"
  | .error _ => false


/-! ### Helper lemmas -/

/-- A string that contains the non-empty LinkedIn job marker is non-empty. -/
theorem containsSub_marker_ne_empty {s : String}
    (h : containsSub s linkedinMarker = true) : s ≠ "" := by
  intro he
  subst he
  exact absurd h (by decide)

/-- The upstream-or-fallback message is either the fallback or the upstream
detail itself. -/
theorem detailOr_spec (d : Option String) (f : String) :
    detailOr d f = f ∨ d = some (detailOr d f) := by
  cases d with
  | none => exact Or.inl rfl
  | some x =>
    by_cases hx : x = ""
    · exact Or.inl (by simp [detailOr, hx])
    · exact Or.inr (by simp [detailOr, hx])

/-- With no upstream detail, the upstream-or-fallback message is the
fallback. -/
theorem detailOr_none (f : String) : detailOr none f = f := rfl

/-- A non-rate-limit failure outcome is propagated unchanged with no
back-off wait, whatever the retry budget. -/
theorem retryRequest_immediate {α : Type} (outcomes : Nat → Except ApiError α)
    (i retries delay : Nat) (e : ApiError) (ho : outcomes i = .error e)
    (hr : isRateLimitError e = false) :
    retryRequest outcomes i retries delay = (.error e, []) := by
  cases retries with
  | zero => simp [retryRequest, ho]
  | succ r => simp [retryRequest, ho, hr]

/-- Mapping the doubling sequence over `range (n + 1)` peels off the first
delay and doubles the base. -/
theorem geometric_shift (delay n : Nat) :
    (List.range (n + 1)).map (fun k => delay * 2 ^ k) =
      delay :: (List.range n).map (fun k => delay * 2 * 2 ^ k) := by
  rw [List.range_succ_eq_map, List.map_cons, List.map_map]
  refine congrArg₂ List.cons (by simp) ?_
  refine List.map_congr_left ?_
  intro a _
  simp [Function.comp, pow_succ]
  ring

/-- The back-off waits of `retryRequest`: at most `retries` of them, forming
the doubling sequence `delay * 2 ^ k`, and each corresponding to a
rate-limit-classified failure of the matching attempt. -/
theorem retryRequest_spec {α : Type} (outcomes : Nat → Except ApiError α) :
    ∀ retries i delay : Nat,
      (retryRequest outcomes i retries delay).2.length ≤ retries ∧
      (retryRequest outcomes i retries delay).2 =
        (List.range (retryRequest outcomes i retries delay).2.length).map
          (fun k => delay * 2 ^ k) ∧
      (∀ k, k < (retryRequest outcomes i retries delay).2.length →
        ∃ e, outcomes (i + k) = .error e ∧ isRateLimitError e = true) := by
  intro retries
  induction retries with
  | zero =>
    intro i delay
    cases h : outcomes i with
    | ok v =>
      have hu : retryRequest outcomes i 0 delay = (.ok v, []) := by
        unfold retryRequest
        rw [h]
      simp [hu]
    | error e =>
      have hu : retryRequest outcomes i 0 delay = (.error e, []) := by
        unfold retryRequest
        rw [h]
      simp [hu]
  | succ r ih =>
    intro i delay
    cases h : outcomes i with
    | ok v =>
      have hu : retryRequest outcomes i (r + 1) delay = (.ok v, []) := by
        unfold retryRequest
        rw [h]
      simp [hu]
    | error e =>
      by_cases hr : isRateLimitError e
      · obtain ⟨ih1, ih2, ih3⟩ := ih (i + 1) (delay * 2)
        have hu : retryRequest outcomes i (r + 1) delay =
            ((retryRequest outcomes (i + 1) r (delay * 2)).1,
             delay :: (retryRequest outcomes (i + 1) r (delay * 2)).2) := by
          conv_lhs => unfold retryRequest
          rw [h]
          simp [hr]
        rw [hu]
        refine ⟨by simpa using Nat.succ_le_succ ih1, ?_, ?_⟩
        · show delay :: (retryRequest outcomes (i + 1) r (delay * 2)).2 =
            (List.range
              ((delay :: (retryRequest outcomes (i + 1) r (delay * 2)).2).length)).map
              (fun k => delay * 2 ^ k)
          rw [List.length_cons, geometric_shift]
          exact congrArg (List.cons delay) ih2
        · intro k hk
          match k with
          | 0 => exact ⟨e, by simpa using h, hr⟩
          | k' + 1 =>
            have hk' : k' < (retryRequest outcomes (i + 1) r (delay * 2)).2.length := by
              simpa using Nat.lt_of_succ_lt_succ hk
            obtain ⟨e', he', hre'⟩ := ih3 k' hk'
            refine ⟨e', ?_, hre'⟩
            have hidx : i + (k' + 1) = i + 1 + k' := by omega
            rw [hidx]
            exact he'
      · have hu : retryRequest outcomes i (r + 1) delay = (.error e, []) := by
          conv_lhs => unfold retryRequest
          rw [h]
          simp [hr]
        simp [hu]

/-- Dropping a prefix twice with the same test is the same as dropping it
once. -/
theorem dropWhile_idem (p : Char → Bool) (l : List Char) :
    (l.dropWhile p).dropWhile p = l.dropWhile p := by
  induction l with
  | nil => simp
  | cons x xs ih =>
    by_cases h : p x
    · simp [List.dropWhile_cons, h, ih]
    · simp [List.dropWhile_cons, h]

/-- Dropping leading slashes ignores a prepended run of slashes. -/
theorem dropWhile_slash_replicate (n : Nat) (l : List Char) :
    (List.replicate n '/' ++ l).dropWhile (fun c => c = '/') =
      l.dropWhile (fun c => c = '/') := by
  induction n with
  | zero => simp
  | succ n ih => simp [List.replicate_succ, List.dropWhile_cons, ih]

/-- Trailing-slash stripping ignores appended trailing slashes. -/
theorem cleanUrlList_append_slashes (l : List Char) (n : Nat) :
    cleanUrlList (l ++ List.replicate n '/') = cleanUrlList l := by
  unfold cleanUrlList
  rw [List.reverse_append, List.reverse_replicate, dropWhile_slash_replicate]

/-- Trailing-slash stripping is idempotent at the character-list level. -/
theorem cleanUrlList_idem (l : List Char) :
    cleanUrlList (cleanUrlList l) = cleanUrlList l := by
  unfold cleanUrlList
  rw [List.reverse_reverse, dropWhile_idem]


/-- The optimize form passes validation exactly when each of the three field
validators returns no error. -/
theorem optimizeFormErrors_eq_nil_iff (v : OptimizeFormValues) (hasFile : Bool) :
    optimizeFormErrors v hasFile = [] ↔
      validate_resume_text v.resume_text hasFile = none ∧
      validate_job_description v.job_description v = none ∧
      validate_job_url v.job_url v = none := by
  unfold optimizeFormErrors
  rcases h1 : validate_resume_text v.resume_text hasFile <;>
    rcases h2 : validate_job_description v.job_description v <;>
      rcases h3 : validate_job_url v.job_url v <;> simp

/-! ### Claims -/

/-- Claim C1, counterexample: with resume text `"r"`, job description
`"desc A"` and the job URL `"https://linkedin.com/jobs/view/1"` both
supplied, the optimize form validation produces no error and the submission
is dispatched to the URL endpoint, silently picking the URL over the
description — it is not rejected with a ValidationError. -/
theorem claim_C1_counterexample :
    optimizeFormErrors ⟨"r", "desc A", "https://linkedin.com/jobs/view/1"⟩ false = [] ∧
    submitOptimize none ⟨"r", "desc A", "https://linkedin.com/jobs/view/1"⟩ =
      some (.fromUrl "r" "https://linkedin.com/jobs/view/1") := by
  exact ⟨by decide, by decide⟩

/-- Claim C1, amended: supplying neither a job description nor a job URL
fails validation and no request is dispatched; supplying both (with the URL
of recognized shape and a non-empty resume) passes validation and is
resolved by dispatching to the URL endpoint, the description being
ignored. -/
theorem claim_C1_job_input_validation :
    (∀ (f : Option UploadedFile) (v : OptimizeFormValues),
        v.job_description = "" → v.job_url = "" → submitOptimize f v = none) ∧
    (∀ v : OptimizeFormValues, v.job_description ≠ "" →
        containsSub v.job_url linkedinMarker = true → v.resume_text ≠ "" →
        submitOptimize none v = some (.fromUrl v.resume_text v.job_url)) := by
  constructor
  · intro f v hd hu
    have hne : optimizeFormErrors v f.isSome ≠ [] := by
      intro hnil
      rw [optimizeFormErrors_eq_nil_iff] at hnil
      obtain ⟨-, hcontra, -⟩ := hnil
      simp [validate_job_description, hd, hu] at hcontra
    simp [submitOptimize, hne]
  · intro v hd hcont hrt
    have hu : v.job_url ≠ "" := containsSub_marker_ne_empty hcont
    have h1 : validate_resume_text v.resume_text false = none := by
      simp [validate_resume_text, hrt]
    have h2 : validate_job_description v.job_description v = none := by
      simp [validate_job_description, hd]
    have h3 : validate_job_url v.job_url v = none := by
      simp [validate_job_url, hu, hcont]
    have herr : optimizeFormErrors v false = [] :=
      (optimizeFormErrors_eq_nil_iff v false).mpr ⟨h1, h2, h3⟩
    simp [submitOptimize, herr, handleSubmitDispatch, hu]

/-- Claim C1, witness: a concrete rejection of the neither-supplied form and
a concrete both-supplied submission resolved by the URL. -/
theorem claim_C1_witness :
    submitOptimize none ⟨"resume", "", ""⟩ = none ∧
    submitOptimize none ⟨"resume", "desc", "https://linkedin.com/jobs/view/2"⟩ =
      some (.fromUrl "resume" "https://linkedin.com/jobs/view/2") :=
  ⟨claim_C1_job_input_validation.1 none ⟨"resume", "", ""⟩ rfl rfl,
   claim_C1_job_input_validation.2 ⟨"resume", "desc", "https://linkedin.com/jobs/view/2"⟩
     (by decide) (by decide) (by decide)⟩

/-- Claim C2, counterexample: the legacy client's successful job search at a
concrete request delivers a bare flat array to its caller, not the
structured object with a hasMore field. -/
theorem claim_C2_counterexample :
    legacySearch ⟨"engineer", "", "", "", "", "", "", 0⟩ [] = .flat [] ∧
    DeliveredSearch.isStructured (.flat []) = false :=
  ⟨rfl, rfl⟩

/-- Claim C2, amended: the active `JobsApi.search` client delivers the
structured response with jobs, total and has_more to its caller on every
successful call, while the legacy client implementation delivers a bare
flat array, never the structured shape. -/
theorem claim_C2_search_response_shape :
    (∀ (r : JobSearchRequest) (server : JobSearchResponse), r.keywords ≠ "" →
        JobsApi.search r server =
          .ok (.structured server.jobs server.total server.has_more)) ∧
    (∀ (r : JobSearchRequest) (server : List JobDescription),
        (legacySearch r server).isStructured = false) := by
  constructor
  · intro r server hk
    simp [JobsApi.search, hk]
  · intro r server
    rfl

/-- Claim C2, witness: a concrete successful search through the active
client delivers the structured shape. -/
theorem claim_C2_witness :
    JobsApi.search ⟨"engineer", "", "", "", "", "", "recent", 0⟩ ⟨[], 0, false⟩ =
      .ok (.structured [] 0 false) :=
  claim_C2_search_response_shape.1 ⟨"engineer", "", "", "", "", "", "recent", 0⟩
    ⟨[], 0, false⟩ (by decide)

/-- Claim C3: the export button's click handler issues no export request
when no uploaded file is present, and the (spec-modelled) backend exporter
fails with UnsupportedFormat when no original document is supplied, rather
than generating a document from scratch. -/
theorem claim_C3_export_guard :
    (∀ es orr : String, exportOnClick none es orr = none) ∧
    (∀ s : String, exportResumeService none s = .error .unsupportedFormat) :=
  ⟨fun _ _ => rfl, fun _ => rfl⟩

/-- Claim C4, counterexample: a timed-out request — not a rate-limited one —
is nonetheless retried three times with doubling delays, because the timeout
message produced by the interceptor contains the substring the retry
predicate tests for; it is not propagated immediately. -/
theorem claim_C4_counterexample :
    isRateLimitError ⟨timeoutMsg⟩ = true ∧
    retryRequest (fun _ => (.error ⟨timeoutMsg⟩ : Except ApiError Unit)) 0 3 2000 =
      (.error ⟨timeoutMsg⟩, [2000, 4000, 8000]) :=
  ⟨by decide, rfl⟩

/-- Claim C4, amended: errors whose lowercased message contains a rate-limit
marker (which includes the interceptor's timeout message) are retried with a
delay that doubles on each attempt, at most `retries` times (3 by default),
each back-off corresponding to such a failure; errors without the marker
propagate immediately with no retry. -/
theorem claim_C4_retry_policy :
    (∀ (α : Type) (outcomes : Nat → Except ApiError α) (i retries delay : Nat)
        (e : ApiError), outcomes i = .error e → isRateLimitError e = false →
        retryRequest outcomes i retries delay = (.error e, [])) ∧
    (∀ (α : Type) (outcomes : Nat → Except ApiError α) (i retries delay : Nat),
        (retryRequest outcomes i retries delay).2.length ≤ retries ∧
        (retryRequest outcomes i retries delay).2 =
          (List.range (retryRequest outcomes i retries delay).2.length).map
            (fun k => delay * 2 ^ k) ∧
        (∀ k, k < (retryRequest outcomes i retries delay).2.length →
          ∃ e, outcomes (i + k) = .error e ∧ isRateLimitError e = true)) ∧
    (∀ (α : Type) (outcomes : Nat → Except ApiError α),
        (retryRequestDefault outcomes).2.length ≤ 3) ∧
    isRateLimitError ⟨timeoutMsg⟩ = true := by
  refine ⟨?_, ?_, ?_, by decide⟩
  · intro α outcomes i retries delay e ho hr
    exact retryRequest_immediate outcomes i retries delay e ho hr
  · intro α outcomes i retries delay
    exact retryRequest_spec outcomes retries i delay
  · intro α outcomes
    exact (retryRequest_spec outcomes 3 0 2000).1

/-- Claim C4, witness: a concrete non-rate-limit failure (the 404 message)
propagates immediately with no back-off wait. -/
theorem claim_C4_witness :
    retryRequest (fun _ => (.error ⟨notFoundMsg⟩ : Except ApiError Unit)) 0 3 2000 =
      (.error ⟨notFoundMsg⟩, []) :=
  claim_C4_retry_policy.1 Unit (fun _ => .error ⟨notFoundMsg⟩) 0 3 2000
    ⟨notFoundMsg⟩ rfl (by decide)

/-- Claim C5: both clients surface, for every failed HTTP call, either one
of the fixed human-readable messages or the upstream-supplied detail
message; the fixed message is determined by the failure kind (timeout, 429,
404, 400, other), the detail is passed through only when the upstream
provided one, and a missing detail always yields a fixed message. -/
theorem claim_C5_error_messages :
    (∀ e : AxiosFailure,
        interceptMessage e ∈ fixedMessages ∨ e.detail = some (interceptMessage e)) ∧
    (∀ e : AxiosFailure, e.detail = none → interceptMessage e ∈ fixedMessages) ∧
    (∀ e : AxiosFailure, e.timedOut = true → interceptMessage e = timeoutMsg) ∧
    (∀ e : AxiosFailure, e.timedOut = false → e.status = some 429 →
        interceptMessage e = rateLimitMsg) ∧
    (∀ e : AxiosFailure, e.timedOut = false → e.status = some 404 →
        interceptMessage e = notFoundMsg) ∧
    (∀ (e : AxiosFailure) (d : String), e.timedOut = false → e.status = some 400 →
        e.detail = some d → d ≠ "" → interceptMessage e = d) ∧
    (∀ (b : Bool) (st : Option Nat) (d : Option String),
        handleErrorMessage b st d ∈ fixedMessages ∨
          d = some (handleErrorMessage b st d)) ∧
    (∀ (b : Bool) (st : Option Nat), handleErrorMessage b st none ∈ fixedMessages) := by
  refine ⟨?_, ?_, ?_, ?_, ?_, ?_, ?_, ?_⟩
  · intro e
    obtain ⟨t, st, d⟩ := e
    unfold interceptMessage
    dsimp only
    split_ifs
    · exact Or.inl (by simp [fixedMessages])
    · exact Or.inl (by simp [fixedMessages])
    · exact Or.inl (by simp [fixedMessages])
    · rcases detailOr_spec d badRequestMsg with h | h
      · exact Or.inl (by rw [h]; simp [fixedMessages])
      · exact Or.inr h
    · rcases detailOr_spec d genericMsg with h | h
      · exact Or.inl (by rw [h]; simp [fixedMessages])
      · exact Or.inr h
  · intro e hd
    obtain ⟨t, st, d⟩ := e
    simp only at hd
    subst hd
    unfold interceptMessage
    dsimp only
    split_ifs <;> simp [detailOr, fixedMessages]
  · intro e ht
    simp [interceptMessage, ht]
  · intro e ht hst
    simp [interceptMessage, ht, hst]
  · intro e ht hst
    simp [interceptMessage, ht, hst]
  · intro e d ht hst hd hne
    simp [interceptMessage, ht, hst, hd, detailOr, hne]
  · intro b st d
    cases b with
    | false => exact Or.inl (by simp [handleErrorMessage, fixedMessages])
    | true =>
      by_cases hst : st = some 429
      · exact Or.inl (by simp [handleErrorMessage, hst, fixedMessages])
      · rcases detailOr_spec d anErrorOccurredMsg with h | h
        · exact Or.inl (by simp [handleErrorMessage, hst, h, fixedMessages])
        · exact Or.inr (by simpa [handleErrorMessage, hst] using h)
  · intro b st
    cases b with
    | false => simp [handleErrorMessage, fixedMessages]
    | true =>
      by_cases hst : st = some 429 <;>
        simp [handleErrorMessage, hst, detailOr, fixedMessages]

/-- Claim C5, witness: concrete failures of each kind produce the expected
surfaced messages. -/
theorem claim_C5_witness :
    interceptMessage ⟨true, none, none⟩ = timeoutMsg ∧
    interceptMessage ⟨false, some 429, none⟩ = rateLimitMsg ∧
    interceptMessage ⟨false, some 400, some "bad keywords"⟩ = "bad keywords" :=
  ⟨claim_C5_error_messages.2.2.1 ⟨true, none, none⟩ rfl,
   claim_C5_error_messages.2.2.2.1 ⟨false, some 429, none⟩ rfl rfl,
   claim_C5_error_messages.2.2.2.2.2.1 ⟨false, some 400, some "bad keywords"⟩
     "bad keywords" rfl rfl rfl (by decide)⟩


/-- Claim C6, counterexample: a pasted resume consisting of a single space —
empty after trimming — passes the form's `!value` validation and an
optimization request carrying it is submitted; no ValidationError occurs. -/
theorem claim_C6_counterexample :
    trimString " " = "" ∧
    submitOptimize none ⟨" ", "jd", ""⟩ = some (.plain " " "jd") := by
  exact ⟨rfl, by decide⟩

/-- Claim C6, amended: pasted resume text is rejected (and nothing is
submitted) only when it is literally the empty string with no file selected;
whitespace-only pasted text is submitted as-is.  An uploaded plain-text file
whose content is empty after trimming is rejected at upload time and its
content is not loaded; otherwise the loaded text equals the file content
as-is, and a submitted request carries the resolved text unchanged. -/
theorem claim_C6_plaintext_resolution :
    (∀ v : OptimizeFormValues, v.resume_text = "" → submitOptimize none v = none) ∧
    (∀ (name : String) (size : Nat) (content : String), size ≤ maxUploadSize →
        endsWithStr (lowerString name) ".txt" = true →
        endsWithStr (lowerString name) ".docx" = false →
        endsWithStr (lowerString name) ".doc" = false →
        trimString content = "" →
        handleFileUpload name size content = .emptyFile) ∧
    (∀ (name : String) (size : Nat) (content : String), size ≤ maxUploadSize →
        endsWithStr (lowerString name) ".txt" = true →
        endsWithStr (lowerString name) ".docx" = false →
        endsWithStr (lowerString name) ".doc" = false →
        trimString content ≠ "" →
        handleFileUpload name size content = .loaded content) ∧
    (∀ v : OptimizeFormValues, v.resume_text ≠ "" → v.job_description ≠ "" →
        v.job_url = "" →
        submitOptimize none v = some (.plain v.resume_text v.job_description)) := by
  refine ⟨?_, ?_, ?_, ?_⟩
  · intro v hrt
    have hne : optimizeFormErrors v false ≠ [] := by
      intro hnil
      rw [optimizeFormErrors_eq_nil_iff] at hnil
      obtain ⟨hcontra, -, -⟩ := hnil
      simp [validate_resume_text, hrt] at hcontra
    simp [submitOptimize, hne]
  · intro name size content hsize htxt hdocx hdoc htrim
    have hns : ¬ (maxUploadSize < size) := Nat.not_lt.mpr hsize
    simp [handleFileUpload, hns, htxt, hdocx, hdoc, htrim]
  · intro name size content hsize htxt hdocx hdoc htrim
    have hns : ¬ (maxUploadSize < size) := Nat.not_lt.mpr hsize
    simp [handleFileUpload, hns, htxt, hdocx, hdoc, htrim]
  · intro v hrt hd hu
    have h1 : validate_resume_text v.resume_text false = none := by
      simp [validate_resume_text, hrt]
    have h2 : validate_job_description v.job_description v = none := by
      simp [validate_job_description, hd]
    have h3 : validate_job_url v.job_url v = none := by
      simp [validate_job_url, hu, hd]
    have herr : optimizeFormErrors v false = [] :=
      (optimizeFormErrors_eq_nil_iff v false).mpr ⟨h1, h2, h3⟩
    simp [submitOptimize, herr, handleSubmitDispatch, hu]

/-- Claim C6, witness: concrete empty and non-empty uploads and paste
submissions behave as the amended claim states. -/
theorem claim_C6_witness :
    handleFileUpload "cv.txt" 100 " " = .emptyFile ∧
    handleFileUpload "cv.txt" 100 "hello" = .loaded "hello" ∧
    submitOptimize none ⟨"", "jd", ""⟩ = none ∧
    submitOptimize none ⟨"r", "jd", ""⟩ = some (.plain "r" "jd") :=
  ⟨claim_C6_plaintext_resolution.2.1 "cv.txt" 100 " " (by decide) (by decide)
     (by decide) (by decide) rfl,
   claim_C6_plaintext_resolution.2.2.1 "cv.txt" 100 "hello" (by decide) (by decide)
     (by decide) (by decide) (by decide),
   claim_C6_plaintext_resolution.1 ⟨"", "jd", ""⟩ rfl,
   claim_C6_plaintext_resolution.2.2.2 ⟨"r", "jd", ""⟩ (by decide) (by decide) rfl⟩

/-- Claim C7: with empty keywords, `JobsApi.search` throws the validation
message and no request body is sent; with non-empty keywords, the cleaned
request proceeds; the search form's keyword validator additionally rejects
keywords that are empty after trimming. -/
theorem claim_C7_search_keywords :
    (∀ r : JobSearchRequest, r.keywords = "" →
        searchRequestSent r = none ∧
        ∀ server : JobSearchResponse,
          JobsApi.search r server = .error ⟨searchValidationMsg⟩) ∧
    (∀ r : JobSearchRequest, r.keywords ≠ "" →
        searchRequestSent r = some (cleanRequest r)) ∧
    (∀ s : String, formValidateKeywords s = none ↔ (trimString s).length ≠ 0) := by
  refine ⟨?_, ?_, ?_⟩
  · intro r hk
    exact ⟨by simp [searchRequestSent, hk],
           fun server => by simp [JobsApi.search, hk]⟩
  · intro r hk
    simp [searchRequestSent, hk]
  · intro s
    by_cases h : (trimString s).length = 0 <;> simp [formValidateKeywords, h]

/-- Claim C7, witness: the empty-keywords request sends nothing; a concrete
non-empty request sends its cleaned body. -/
theorem claim_C7_witness :
    searchRequestSent ⟨"", "", "", "", "", "", "", 0⟩ = none ∧
    searchRequestSent ⟨"engineer", "Sydney", "", "", "", "", "recent", 0⟩ =
      some [("keywords", "engineer"), ("location", "Sydney"),
            ("sort_by", "recent"), ("page", "0")] := by
  constructor
  · exact (claim_C7_search_keywords.1 ⟨"", "", "", "", "", "", "", 0⟩ rfl).1
  · rw [claim_C7_search_keywords.2.1 ⟨"engineer", "Sydney", "", "", "", "", "recent", 0⟩
      (by decide)]
    decide

/-- Claim C8: a non-empty job URL lacking the recognized LinkedIn job
marker fails the form's URL validator and nothing is dispatched; a URL
containing the marker passes the URL validator. -/
theorem claim_C8_url_validation :
    (∀ (f : Option UploadedFile) (v : OptimizeFormValues),
        v.job_url ≠ "" → containsSub v.job_url linkedinMarker = false →
        validate_job_url v.job_url v = some jobUrlInvalidMsg ∧
          submitOptimize f v = none) ∧
    (∀ v : OptimizeFormValues, containsSub v.job_url linkedinMarker = true →
        validate_job_url v.job_url v = none) := by
  constructor
  · intro f v hu hc
    have h3 : validate_job_url v.job_url v = some jobUrlInvalidMsg := by
      simp [validate_job_url, hu, hc]
    refine ⟨h3, ?_⟩
    have hne : optimizeFormErrors v f.isSome ≠ [] := by
      intro hnil
      rw [optimizeFormErrors_eq_nil_iff] at hnil
      obtain ⟨-, -, hcon⟩ := hnil
      rw [h3] at hcon
      exact Option.noConfusion hcon
    simp [submitOptimize, hne]
  · intro v hc
    have hu : v.job_url ≠ "" := containsSub_marker_ne_empty hc
    simp [validate_job_url, hu, hc]

/-- Claim C8, witness: a concrete non-LinkedIn URL is rejected with nothing
dispatched, and a concrete LinkedIn job URL passes the validator. -/
theorem claim_C8_witness :
    submitOptimize none ⟨"r", "", "https://example.com/postings/1"⟩ = none ∧
    validate_job_url "https://linkedin.com/jobs/view/5"
      ⟨"r", "", "https://linkedin.com/jobs/view/5"⟩ = none :=
  ⟨(claim_C8_url_validation.1 none ⟨"r", "", "https://example.com/postings/1"⟩
      (by decide) (by decide)).2,
   claim_C8_url_validation.2 ⟨"r", "", "https://linkedin.com/jobs/view/5"⟩ (by decide)⟩

/-- Claim C9: the bodies posted by `optimizeFromUrl` for two URLs that
differ only in trailing slashes are identical, and stripping trailing
slashes is idempotent. -/
theorem claim_C9_url_normalization :
    (∀ (rt base : String) (n m : Nat),
        optimizeFromUrlBody rt (base ++ trailingSlashes n) =
          optimizeFromUrlBody rt (base ++ trailingSlashes m)) ∧
    (∀ u : String, cleanUrl (cleanUrl u) = cleanUrl u) := by
  constructor
  · intro rt base n m
    have key : ∀ j : Nat, cleanUrl (base ++ trailingSlashes j) = cleanUrl base := by
      intro j
      show String.mk (cleanUrlList (base ++ trailingSlashes j).data) =
        String.mk (cleanUrlList base.data)
      rw [String.data_append]
      exact congrArg String.mk (cleanUrlList_append_slashes base.data j)
    unfold optimizeFromUrlBody
    rw [key n, key m]
  · intro u
    show String.mk (cleanUrlList (String.mk (cleanUrlList u.data)).data) =
      String.mk (cleanUrlList u.data)
    exact congrArg String.mk (cleanUrlList_idem u.data)

/-- Claim C10: `ping` is a total Boolean-valued function of the call's
outcome — it returns true exactly when the server responded successfully
with status token ok, and false on every error outcome, which is swallowed
rather than propagated. -/
theorem claim_C10_ping_total :
    (∀ o : Except ApiError PingResponse,
        ping o = true ↔ ∃ r : PingResponse, o = .ok r ∧ r.status = "ok") ∧
    (∀ e : ApiError, ping (.error e) = false) := by
  constructor
  · intro o
    cases o with
    | ok r =>
      constructor
      · intro h
        refine ⟨r, rfl, ?_⟩
        have : (r.status == "ok") = true := h
        exact beq_iff_eq.mp this
      · rintro ⟨r', hr', hs⟩
        have hrr : r = r' := Except.ok.inj hr'
        subst hrr
        show (r.status == "ok") = true
        exact beq_iff_eq.mpr hs
    | error e =>
      constructor
      · intro h
        exact absurd h (by simp [ping])
      · rintro ⟨r', hr', -⟩
        exact Except.noConfusion hr'
  · intro e
    rfl

/-- Claim C10, witness: a concrete ok response yields true and a concrete
error yields false. -/
theorem claim_C10_witness :
    ping (.ok ⟨"ok"⟩) = true ∧ ping (.error ⟨"boom"⟩) = false :=
  ⟨(claim_C10_ping_total.1 (.ok ⟨"ok"⟩)).mpr ⟨⟨"ok"⟩, rfl, rfl⟩,
   claim_C10_ping_total.2 ⟨"boom"⟩⟩

end LinkedinOptimizer
